import Mathlib

/-!
Verification of the menaxa tabular data engine (client-side filter / sort /
paginate pipeline), the derived aggregates, and the upstream edge proxy.

The definitions below are shallow embeddings of the TypeScript source:
* the EOL page (`processData`, `sortedData`, `totalPages`, `handleSortChange`),
* the data-leaks page (the filtering `useEffect`, its date-range filter,
  `totalPages`, `handleSortChange`),
* the Web3 threats page (`getFilteredData`, the search/type/category/project
  filters, `totalLosses`, `sortedExploits`, `lossesOverTimeData`,
  `handleSortChange`, pagination),
* the Cloudflare worker's `fetch` handler.

Modelling conventions:
* JavaScript numbers that hold integral amounts (funds, counts, day numbers,
  epoch minutes) are modelled as `Int`/`Nat`.
* `Date` values are modelled as minutes since the Unix epoch.  Generic
  date-string parsing (`new Date(string)`) is modelled for date-only ISO
  strings `YYYY-MM-DD`, which the ECMAScript standard parses as UTC midnight;
  other formats are implementation-defined in JS and are modelled as
  unparsable (an invalid `Date`, i.e. `none`).
* The component constructor `new Date(y, m-1, d)` builds local midnight; the
  host timezone is an explicit parameter `tz`, the offset east of UTC in
  minutes, so local midnight is `days*1440 - tz` in epoch minutes.  Concrete
  evaluations use `tz = 0` (a UTC host) unless the claim is precisely about
  the difference between the two parsing modes.
* `Array.prototype.sort` is required by ECMAScript to be stable; it is
  modelled as a stable insertion sort over the source's comparator.
* `localeCompare` is modelled as code-point lexicographic comparison.
-/

namespace Menaxa

/-! ### Stable sort over a JS-style comparator

`sortWith cmp` models `array.sort(cmp)`: a stable sort where `cmp a b < 0`
places `a` before `b`.  `insertCmp` inserts an element after every element
strictly smaller than it, so elements comparing equal keep their original
relative order. -/

def insertCmp (cmp : α → α → Int) (x : α) : List α → List α
  | [] => [x]
  | y :: ys => if cmp y x < 0 then y :: insertCmp cmp x ys else x :: y :: ys

def sortWith (cmp : α → α → Int) : List α → List α
  | [] => []
  | x :: xs => insertCmp cmp x (sortWith cmp xs)

/-! ### JavaScript string and number helpers -/

/-- `String.prototype.toLowerCase` (ASCII case mapping). -/
def strLower (s : String) : String := String.mk (s.toList.map Char.toLower)

/-- Needle-in-haystack search over character lists. -/
def hasSub (needle : List Char) : List Char → Bool
  | [] => needle.isEmpty
  | c :: t => needle.isPrefixOf (c :: t) || hasSub needle t

/-- `String.prototype.includes`: `strContains h n` is `h.includes(n)`. -/
def strContains (h n : String) : Bool := hasSub n.toList h.toList

/-- `localeCompare`, modelled as code-point lexicographic comparison returning
`-1`, `0` or `1`. -/
def strCmpInt (a b : String) : Int :=
  match compare a b with
  | .lt => -1
  | .eq => 0
  | .gt => 1

/-- `s.split(sep)` for a one-character separator (the only shape the source
uses): splits on every occurrence, keeping empty pieces, and yields `[""]`
on the empty string, as in JavaScript. -/
def splitCharAux (sep : Char) : List Char → List Char → List String
  | [], acc => [String.mk acc.reverse]
  | c :: rest, acc =>
    if c = sep then String.mk acc.reverse :: splitCharAux sep rest []
    else splitCharAux sep rest (c :: acc)

def splitOnChar (sep : Char) (s : String) : List String :=
  splitCharAux sep s.toList []

/-- `String.prototype.trim` (ASCII whitespace). -/
def trimStr (s : String) : String :=
  String.mk (((s.toList.dropWhile Char.isWhitespace).reverse.dropWhile
    Char.isWhitespace).reverse)

/-- `Number(s)` on the strings that occur as leading date components:
the empty string converts to `0`, a decimal-digit string to its value, and
anything else to `NaN` (modelled as `none`). -/
def jsNumberOf (s : String) : Option Int :=
  if s.isEmpty then some 0
  else if s.toList.all Char.isDigit then
    some (s.toList.foldl (fun acc c => acc * 10 + ((c.toNat : Int) - 48)) 0)
  else none

/-! ### JavaScript `Date` model

Timestamps are minutes since the Unix epoch.  `daysFromCivil` is the
standard civil-calendar day count (days since 1970-01-01, proleptic
Gregorian), matching what `Date.UTC(y, m-1, d) / 86400000` computes. -/

def daysFromCivil (y m d : Int) : Int :=
  let yAdj := if m ≤ 2 then y - 1 else y
  let era := (if 0 ≤ yAdj then yAdj else yAdj - 399) / 400
  let yoe := yAdj - era * 400
  let mp := (m + 9) % 12
  let doy := (153 * mp + 2) / 5 + d - 1
  let doe := yoe * 365 + yoe / 4 - yoe / 100 + doy
  era * 146097 + doe - 719468

def isLeapYear (y : Int) : Bool :=
  (y % 4 == 0 && y % 100 != 0) || y % 400 == 0

def daysInMonth (y m : Int) : Int :=
  if m = 2 then (if isLeapYear y then 29 else 28)
  else if m = 4 ∨ m = 6 ∨ m = 9 ∨ m = 11 then 30
  else 31

/-- The literal pattern `^\d{4}-\d{2}-\d{2}$` together with the numeric values
of its three components (no calendar validation, exactly like the regex). -/
def isoComponents (s : String) : Option (Int × Int × Int) :=
  match s.toList with
  | [a, b, c, d, h1, e, f, h2, g, h] =>
    if a.isDigit && b.isDigit && c.isDigit && d.isDigit && h1 = '-' &&
       e.isDigit && f.isDigit && h2 = '-' && g.isDigit && h.isDigit then
      let dv : Char → Int := fun ch => (ch.toNat : Int) - 48
      some (1000 * dv a + 100 * dv b + 10 * dv c + dv d,
            10 * dv e + dv f, 10 * dv g + dv h)
    else none
  | _ => none

/-- Calendar validity of an ISO triple; the ECMAScript date-string parser
rejects out-of-range fields (`new Date("2024-13-01")` is an invalid `Date`). -/
def isoValid (y m d : Int) : Bool :=
  1 ≤ m && m ≤ 12 && 1 ≤ d && d ≤ daysInMonth y m

/-- Generic date-string parsing `new Date(s)`, at day granularity: a valid
date-only ISO string parses (to its UTC epoch day); everything else is an
invalid `Date`, modelled `none` (see the header comment). -/
def jsParseDay (s : String) : Option Int :=
  match isoComponents s with
  | some (y, m, d) => if isoValid y m d then some (daysFromCivil y m d) else none
  | none => none

/-- Generic date-string parsing as an epoch-minute timestamp (`getTime`,
scaled to minutes): date-only ISO strings are parsed as UTC midnight. -/
def jsParseTs (s : String) : Option Int := (jsParseDay s).map (· * 1440)

/-- The component constructor `new Date(y, m-1, d)`: months outside `1..12`
and days outside the month roll over; the result is local midnight, i.e.
`days*1440 - tz` epoch minutes for a host whose UTC offset is `tz` minutes. -/
def jsMakeDateTs (tz y m d : Int) : Int :=
  let m0 := m - 1
  daysFromCivil (y + Int.fdiv m0 12) (Int.emod m0 12 + 1) d * 1440 - tz

/-! ### Shared pagination (part_002 L203, part_009 L186, part_004 L328)

All three pages compute `Math.ceil(filteredCount / pageSize)` with no lower
bound, and slice `[(page-1)*pageSize, page*pageSize)` with the page taken
verbatim from state. -/

def totalPages (count pageSize : Nat) : Nat := (count + pageSize - 1) / pageSize

/-- The spec's formula for the page count: `max(1, ceil(count / pageSize))`.
Written from the spec's words, for comparison with `totalPages`. -/
def specTotalPages (count pageSize : Nat) : Nat :=
  max 1 ((count + pageSize - 1) / pageSize)

/-- `array.slice((page-1)*pageSize, page*pageSize)`. -/
def slicePage (l : List α) (page pageSize : Nat) : List α :=
  (l.drop ((page - 1) * pageSize)).take pageSize

inductive SortDir
  | asc
  | desc
deriving DecidableEq, Repr

/-! ### EOL page (part_002): `processData` status classification -/

/-- The `eol` feed field is `string | boolean`. -/
inductive EolField
  | str (s : String)
  | bool (b : Bool)
deriving DecidableEq, Repr

/-- A JavaScript number-or-absent value: `daysRemaining` is `undefined` when
there is no EOL date, `NaN` when the date string does not parse, and a day
count otherwise. -/
inductive JsNum
  | undef
  | nan
  | val (n : Int)
deriving DecidableEq, Repr

def jsTruthy : JsNum → Bool
  | .undef => false
  | .nan => false
  | .val n => n != 0

def jsLtNum : JsNum → Int → Bool
  | .val n, k => n < k
  | _, _ => false

/-- `differenceInDays(eolDate, today)` guarded by `eolDate ? ... : undefined`
(part_002 L94-95); `today` is the current epoch day. -/
def daysRemaining (today : Int) (eol : EolField) : JsNum :=
  match eol with
  | .bool _ => .undef
  | .str s =>
    match jsParseDay s with
    | none => .nan
    | some t => .val (t - today)

/-- The status classification of `processData` (part_002 L97-110): every
threshold branch is guarded by the truthiness of `daysRemaining`. -/
def processStatus (today : Int) (eol : EolField) : String :=
  match eol with
  | .bool _ => "Active"
  | .str s =>
    let dr := daysRemaining today (.str s)
    if jsTruthy dr && jsLtNum dr 0 then "Expired"
    else if jsTruthy dr && jsLtNum dr 30 then "Critical"
    else if jsTruthy dr && jsLtNum dr 90 then "Warning"
    else if jsTruthy dr && jsLtNum dr 180 then "Notice"
    else "Active"

/-! ### EOL page state transitions (part_002 L195-212) -/

structure EolState where
  searchQuery : String
  statusFilter : String
  softwareFilter : String
  sortKey : String
  sortDirection : SortDir
  currentPage : Nat
deriving DecidableEq, Repr

/-- `handleSortChange` (part_002 L195-200): updates `sortConfig` only. -/
def eolHandleSortChange (key : String) (st : EolState) : EolState :=
  { st with
    sortKey := key
    sortDirection :=
      if st.sortKey = key && st.sortDirection = .asc then .desc else .asc }

/-- A search-query change; the effect at part_002 L210-212 resets the page. -/
def eolSetSearchQuery (q : String) (st : EolState) : EolState :=
  { st with searchQuery := q, currentPage := 1 }

def eolSetStatusFilter (v : String) (st : EolState) : EolState :=
  { st with statusFilter := v, currentPage := 1 }

def eolSetSoftwareFilter (v : String) (st : EolState) : EolState :=
  { st with softwareFilter := v, currentPage := 1 }

/-! ### Data-leaks page (part_009): filtering `useEffect` and state -/

/-- A data-leak record; `breach_date` is `Option` so a record with the field
missing can be expressed (the other fields of the feed shape that the claims
never touch are omitted). -/
structure DataLeak where
  domain : String
  breach_date : Option String
  data_leaked : String
  leak_count : Int
  name : String
deriving DecidableEq, Repr

/-- `new Date(leak.breach_date).getTime()`: generic parsing (no special case
for `YYYY-MM-DD`); a missing field parses like `new Date(undefined)`,
an invalid `Date`.  Used by both the date-range filter (part_009 L130-145)
and the `breach_date` sort branch (part_009 L154-156). -/
def leakBreachTs (o : Option String) : Option Int :=
  match o with
  | none => none
  | some s => jsParseTs s

/-- `a >= b` on `getTime` values where either side may be `NaN`: any
comparison against `NaN` is false. -/
def geOpt : Option Int → Option Int → Bool
  | some a, some b => b ≤ a
  | _, _ => false

/-- `a <= b` with `NaN` propagation. -/
def leOpt : Option Int → Option Int → Bool
  | some a, some b => a ≤ b
  | _, _ => false

def leaksSearchPasses (q : String) (l : DataLeak) : Bool :=
  strContains (strLower l.name) (strLower q) ||
  strContains (strLower l.domain) (strLower q) ||
  strContains (strLower l.data_leaked) (strLower q)

def leaksTypePasses (t : String) (l : DataLeak) : Bool :=
  strContains (strLower l.data_leaked) (strLower t)

/-- The filter stage of the `useEffect` at part_009 L111-146: search
(skipped on an empty query), data-type (skipped on `"all"`), then the two
date-range bounds, each skipped when its string is empty (falsy).  The
subsequent in-place sort permutes but never adds or removes records, so the
record-inclusion claims are stated against this function. -/
def applyLeaksFilters (q tFilter sd ed : String) (leaks : List DataLeak) :
    List DataLeak :=
  let r1 := if q.isEmpty then leaks else leaks.filter (leaksSearchPasses q)
  let r2 := if tFilter = "all" then r1 else r1.filter (leaksTypePasses tFilter)
  let r3 := if sd.isEmpty then r2
    else r2.filter (fun l => geOpt (leakBreachTs l.breach_date) (jsParseTs sd))
  if ed.isEmpty then r3
  else r3.filter (fun l => leOpt (leakBreachTs l.breach_date) (jsParseTs ed))

structure LeaksState where
  searchQuery : String
  dataTypeFilter : String
  startDate : String
  endDate : String
  sortKey : String
  sortDirection : SortDir
  currentPage : Nat
deriving DecidableEq, Repr

/-- `handleSortChange` (part_009 L177-183): updates `sortConfig` only. -/
def leaksHandleSortChange (key : String) (st : LeaksState) : LeaksState :=
  { st with
    sortKey := key
    sortDirection :=
      if st.sortKey = key && st.sortDirection = .asc then .desc else .asc }

/-- Filter-state changes; the effect at part_009 L193-195 resets the page. -/
def leaksSetSearchQuery (q : String) (st : LeaksState) : LeaksState :=
  { st with searchQuery := q, currentPage := 1 }

def leaksSetDataTypeFilter (v : String) (st : LeaksState) : LeaksState :=
  { st with dataTypeFilter := v, currentPage := 1 }

def leaksSetStartDate (v : String) (st : LeaksState) : LeaksState :=
  { st with startDate := v, currentPage := 1 }

def leaksSetEndDate (v : String) (st : LeaksState) : LeaksState :=
  { st with endDate := v, currentPage := 1 }

/-! ### Web3 threats page (part_004) -/

/-- An exploit record (feed fields the claims never touch are omitted).
`date` is `Option` so a missing/null field can be expressed; `funds_lost`,
`name_categories` and `token_name` are nullable in the feed. -/
structure ExploitDetail where
  project_name : String
  quick_summary : String
  funds_lost : Option Int
  date : Option String
  scam_type : String
  name_categories : Option String
  token_name : Option String
deriving DecidableEq, Repr

inductive TimeFilter
  | m3
  | m6
  | y1
  | all
deriving DecidableEq, Repr

/-- The client clock `new Date()`, as a local civil date plus minutes past
local midnight. -/
structure NowTime where
  year : Int
  month : Int
  day : Int
  mins : Int
deriving DecidableEq, Repr

/-- `getStartDate` (part_004 L126-144): `setMonth`/`setFullYear` arithmetic
preserves the day and time of day and rolls months over; `'all'` yields
`new Date(0)`. -/
def web3StartDate (tz : Int) (n : NowTime) : TimeFilter → Int
  | .m3 => jsMakeDateTs tz n.year (n.month - 3) n.day + n.mins
  | .m6 => jsMakeDateTs tz n.year (n.month - 6) n.day + n.mins
  | .y1 => jsMakeDateTs tz (n.year - 1) n.month n.day + n.mins
  | .all => 0

/-- The date value `getFilteredData` compares against the start bound
(part_004 L155-167): a string matching `YYYY-MM-DD` is built with the local
component constructor (never an invalid `Date`); anything else is parsed
generically, and `none` is an invalid `Date`. -/
def web3FilterDateTs (tz : Int) (s : String) : Option Int :=
  match isoComponents s with
  | some (y, m, d) => some (jsMakeDateTs tz y m d)
  | none => jsParseTs s

/-- `Number(date.split('-')[0])`, the pre-2015 guard's year (part_004 L152). -/
def leadingYearNum (s : String) : Option Int :=
  jsNumberOf ((splitOnChar '-' s).headD "")

/-- The filter predicate of `getFilteredData` (part_004 L148-174). -/
def web3ExploitPasses (tz startTs : Int) (e : ExploitDetail) : Bool :=
  match e.date with
  | none => false
  | some s =>
    if s.isEmpty then false
    else if (match leadingYearNum s with
             | some y => decide (y < 2015)
             | none => false) then false
    else match web3FilterDateTs tz s with
      | none => false
      | some ts => startTs ≤ ts

/-- `getFilteredData` (part_004 L122-175). -/
def getFilteredData (tz : Int) (n : NowTime) (tf : TimeFilter)
    (exploits : List ExploitDetail) : List ExploitDetail :=
  exploits.filter (web3ExploitPasses tz (web3StartDate tz n tf))

/-- The search filter (part_004 L194-203). -/
def web3SearchPasses (q : String) (e : ExploitDetail) : Bool :=
  if (trimStr q).isEmpty then true
  else
    strContains (strLower e.project_name) (strLower q) ||
    strContains (strLower e.quick_summary) (strLower q) ||
    strContains (strLower e.scam_type) (strLower q)

/-- The scam-type filter (part_004 L206-209). -/
def web3TypePasses (tf : String) (e : ExploitDetail) : Bool :=
  tf = "all" || e.scam_type = tf

/-- The category filter (part_004 L212-215); a `null` `name_categories`
short-circuits the optional chain to a falsy value. -/
def web3CategoryPasses (cf : String) (e : ExploitDetail) : Bool :=
  if cf = "all" then true
  else match e.name_categories with
    | none => false
    | some cs => (splitOnChar ',' cs).any (fun c => trimStr c = cf)

/-- The project filter (part_004 L218-221). -/
def web3ProjectPasses (pf : String) (e : ExploitDetail) : Bool :=
  pf = "all" || e.project_name = pf

/-- `projectFilteredExploits`: the full filter pipeline feeding the
statistics, the sort and the pagination (part_004 L177-221). -/
def projectFilteredExploits (tz : Int) (n : NowTime) (tf : TimeFilter)
    (q tyf cf pf : String) (exploits : List ExploitDetail) :
    List ExploitDetail :=
  ((((getFilteredData tz n tf exploits).filter
      (web3SearchPasses q)).filter
      (web3TypePasses tyf)).filter
      (web3CategoryPasses cf)).filter
      (web3ProjectPasses pf)

/-- `totalLosses` (part_004 L224): a fold over the filtered, pre-pagination
set, `null` contributing `0`. -/
def totalLosses (tz : Int) (n : NowTime) (tf : TimeFilter)
    (q tyf cf pf : String) (exploits : List ExploitDetail) : Int :=
  (projectFilteredExploits tz n tf q tyf cf pf exploits).foldl
    (fun sum e => sum + e.funds_lost.getD 0) 0

/-! ### Web3 comparator and sort (part_004 L228-292) -/

/-- The sortable column keys of the Web3 incidents table. -/
inductive Web3SortKey
  | project_name
  | scam_type
  | name_categories
  | funds_lost
  | date
  | token_name
deriving DecidableEq, Repr

/-- Whether `a[sortConfig.key]` is `null`/`undefined` (the comparator's
leading guard, part_004 L229-233). -/
def web3FieldIsNull (k : Web3SortKey) (e : ExploitDetail) : Bool :=
  match k with
  | .project_name => false
  | .scam_type => false
  | .name_categories => e.name_categories.isNone
  | .funds_lost => e.funds_lost.isNone
  | .date => e.date.isNone
  | .token_name => e.token_name.isNone

/-- The comparator of `sortedExploits` (part_004 L228-292).  Both null guards
come first and return `-1`/`1` by direction alone; then the key-specific
branches: the `date` branch re-parses with the ISO special case and falls
back to `localeCompare` when either timestamp is `NaN`; `funds_lost` compares
`a.funds_lost || 0`; `token_name` compares the trimmed first token;
string-valued keys use `localeCompare`. -/
def web3SortCmp (tz : Int) (key : Web3SortKey) (dir : SortDir)
    (a b : ExploitDetail) : Int :=
  if web3FieldIsNull key a then (if dir = .asc then -1 else 1)
  else if web3FieldIsNull key b then (if dir = .asc then 1 else -1)
  else match key with
  | .date =>
    let sa := a.date.getD ""
    let sb := b.date.getD ""
    match web3FilterDateTs tz sa, web3FilterDateTs tz sb with
    | some da, some db => if dir = .asc then da - db else db - da
    | _, _ => if dir = .asc then strCmpInt sa sb else strCmpInt sb sa
  | .funds_lost =>
    let fa := a.funds_lost.getD 0
    let fb := b.funds_lost.getD 0
    if dir = .asc then fa - fb else fb - fa
  | .token_name =>
    let ta := trimStr ((splitOnChar ',' (a.token_name.getD "")).headD "")
    let tb := trimStr ((splitOnChar ',' (b.token_name.getD "")).headD "")
    if dir = .asc then strCmpInt ta tb else strCmpInt tb ta
  | .project_name =>
    if dir = .asc then strCmpInt a.project_name b.project_name
    else strCmpInt b.project_name a.project_name
  | .scam_type =>
    if dir = .asc then strCmpInt a.scam_type b.scam_type
    else strCmpInt b.scam_type a.scam_type
  | .name_categories =>
    let sa := a.name_categories.getD ""
    let sb := b.name_categories.getD ""
    if dir = .asc then strCmpInt sa sb else strCmpInt sb sa

/-- `sortedExploits = [...projectFilteredExploits].sort(cmp)`. -/
def sortedExploits (tz : Int) (key : Web3SortKey) (dir : SortDir)
    (l : List ExploitDetail) : List ExploitDetail :=
  sortWith (web3SortCmp tz key dir) l

/-! ### Web3 chart series `lossesOverTimeData` (part_004 L304-321)

Buckets are keyed by the `"Mon YYYY"` label of `new Date(exploit.date)`
under the local getters; on a UTC host a valid date-only ISO string yields
its own (year, month), and every invalid `Date` yields the one shared label
`"Invalid Date NaN"`, modelled as the key `none`.  The final sort re-parses
the label and compares `getTime()`; for valid labels that timestamp is the
first day of the bucket's month (`bucketTime`).  The `NaN` sort key of the
invalid-label bucket is modelled as `0`; the ordering theorem below is
stated for inputs whose dates all parse, where that bucket does not arise. -/

def bucketTime : Option (Int × Int) → Int
  | some (y, m) => daysFromCivil y m 1
  | none => 0

/-- `(date.getFullYear(), date.getMonth()+1)` of `new Date(s)` on a UTC
host, or `none` for an invalid `Date`. -/
def monthYearOf (s : String) : Option (Int × Int) :=
  match isoComponents s with
  | some (y, m, d) => if isoValid y m d then some (y, m) else none
  | none => none

/-- The English short month names used by `toLocaleString('default',
{month: 'short'})`. -/
def shortMonthName (m : Int) : String :=
  if m = 1 then "Jan" else if m = 2 then "Feb" else if m = 3 then "Mar"
  else if m = 4 then "Apr" else if m = 5 then "May" else if m = 6 then "Jun"
  else if m = 7 then "Jul" else if m = 8 then "Aug" else if m = 9 then "Sep"
  else if m = 10 then "Oct" else if m = 11 then "Nov" else if m = 12 then "Dec"
  else "NaN"

/-- The display label of a bucket key. -/
def bucketLabel : Option (Int × Int) → String
  | some (y, m) => shortMonthName m ++ " " ++ toString y
  | none => "Invalid Date NaN"

/-- `acc.find(item => item.date === monthYear)` then add-or-append. -/
def updateBucket (key : Option (Int × Int)) (v : Int) :
    List (Option (Int × Int) × Int) → List (Option (Int × Int) × Int)
  | [] => [(key, v)]
  | (k, x) :: rest =>
    if k = key then (k, x + v) :: rest else (k, x) :: updateBucket key v rest

/-- One step of the `reduce` at part_004 L304-316: records with a falsy
`date` are skipped, `null` losses contribute `0`. -/
def chartStep (acc : List (Option (Int × Int) × Int)) (e : ExploitDetail) :
    List (Option (Int × Int) × Int) :=
  match e.date with
  | none => acc
  | some s =>
    if s.isEmpty then acc
    else updateBucket (monthYearOf s) (e.funds_lost.getD 0) acc

/-- The accumulated buckets, in first-appearance order. -/
def chartBuckets (l : List ExploitDetail) : List (Option (Int × Int) × Int) :=
  l.foldl chartStep []

/-- `lossesOverTimeData` (part_004 L304-321): reduce into first-appearance
buckets, then sort by the re-parsed label time. -/
def lossesOverTimeData (l : List ExploitDetail) :
    List (Option (Int × Int) × Int) :=
  sortWith (fun b1 b2 => bucketTime b1.1 - bucketTime b2.1) (chartBuckets l)

/-! ### Web3 page state transitions (part_004 L295-301, L498, L646-670,
L925-975) -/

structure Web3State where
  timeFilter : TimeFilter
  searchQuery : String
  typeFilter : String
  categoryFilter : String
  sortKey : Web3SortKey
  sortDirection : SortDir
  currentPage : Nat
deriving DecidableEq, Repr

/-- `handleSortChange` (part_004 L295-301): flips the direction and calls
`setCurrentPage(1)`. -/
def web3HandleSortChange (key : Web3SortKey) (st : Web3State) : Web3State :=
  { st with
    sortKey := key
    sortDirection :=
      if st.sortKey = key && st.sortDirection = .asc then .desc else .asc
    currentPage := 1 }

/-- The time-range buttons call `setTimeFilter` alone (part_004 L646, L653,
L660, L667, L1000, L1008, L1016, L1024): no page reset. -/
def web3SetTimeFilter (tf : TimeFilter) (st : Web3State) : Web3State :=
  { st with timeFilter := tf }

/-- The search box `onChange` (part_004 L929-932) also resets the page. -/
def web3SetSearchQuery (q : String) (st : Web3State) : Web3State :=
  { st with searchQuery := q, currentPage := 1 }

def web3SetCategoryFilter (v : String) (st : Web3State) : Web3State :=
  { st with categoryFilter := v, currentPage := 1 }

def web3SetTypeFilter (v : String) (st : Web3State) : Web3State :=
  { st with typeFilter := v, currentPage := 1 }

/-! ### Edge proxy worker (part_000 L1-39) -/

structure WorkerEnv where
  UPSTREAM_PROXY_TOKEN : Option String
  ORIGIN_BASE_URL : Option String
deriving DecidableEq, Repr

structure WorkerRequest where
  pathname : String
  xUpstreamToken : Option String
deriving DecidableEq, Repr

/-- What the worker observes of the upstream `fetch` result. -/
structure UpstreamResult where
  status : Nat
  hasSetCookie : Bool
deriving DecidableEq, Repr

/-- `response.ok`: status in the range 200-299. -/
def upstreamOk (u : UpstreamResult) : Bool :=
  200 ≤ u.status && u.status < 300

/-- The worker's observable result: response status, whether a `set-cookie`
header survives, the `Cache-Control` header, and — model bookkeeping for the
side effect — the URL the worker forwarded to, if any. -/
structure WorkerResponse where
  status : Nat
  hasSetCookie : Bool
  cacheControl : Option String
  fetchedUrl : Option String
deriving DecidableEq, Repr

/-- `pathname.replace(/^\/+/, "")`. -/
def stripLeadingSlashes (s : String) : String :=
  String.mk (s.toList.dropWhile (· = '/'))

/-- `ORIGIN_BASE_URL.replace(/\/+$/, "")`. -/
def stripTrailingSlashes (s : String) : String :=
  String.mk ((s.toList.reverse.dropWhile (· = '/')).reverse)

/-- `/^\d{4}\.json$/.test(path)`. -/
def isYearJson (s : String) : Bool :=
  match s.toList with
  | [a, b, c, d, e1, e2, e3, e4, e5] =>
    a.isDigit && b.isDigit && c.isDigit && d.isDigit &&
    e1 = '.' && e2 = 'j' && e3 = 's' && e4 = 'o' && e5 = 'n'
  | _ => false

/-- Whether the configured token check is active: `if (env.UPSTREAM_PROXY_TOKEN)`
is a truthiness test, so an unset or empty-string secret disables it. -/
def tokenCheckActive (env : WorkerEnv) : Bool :=
  match env.UPSTREAM_PROXY_TOKEN with
  | none => false
  | some t => !t.isEmpty

/-- `!provided || provided !== env.UPSTREAM_PROXY_TOKEN`. -/
def tokenRejected (env : WorkerEnv) (req : WorkerRequest) : Bool :=
  match req.xUpstreamToken with
  | none => true
  | some p => p.isEmpty || p ≠ env.UPSTREAM_PROXY_TOKEN.getD ""

/-- The worker `fetch` handler (part_000 L1-39): token gate, path allow-list,
configuration check, then forward; a non-ok upstream status is passed
through on a fresh response; an ok upstream is re-emitted with status 200,
`set-cookie` deleted and `Cache-Control: public, max-age=300`. -/
def workerFetch (env : WorkerEnv) (req : WorkerRequest)
    (upstream : String → UpstreamResult) : WorkerResponse :=
  if tokenCheckActive env && tokenRejected env req then
    ⟨401, false, none, none⟩
  else
    let path := stripLeadingSlashes req.pathname
    if ¬ isYearJson path then ⟨404, false, none, none⟩
    else
      match env.ORIGIN_BASE_URL with
      | none => ⟨500, false, none, none⟩
      | some origin =>
        if origin.isEmpty then ⟨500, false, none, none⟩
        else
          let target := stripTrailingSlashes origin ++ "/" ++ path
          let u := upstream target
          if ¬ upstreamOk u then ⟨u.status, false, none, some target⟩
          else ⟨200, false, some "public, max-age=300", some target⟩

/-! ### Render-time view of the Web3 page

`web3View` pairs the two derived values a render computes from the same
state: the visible page (`paginatedExploits`, part_004 L329-332) and the
`totalLosses` aggregate (part_004 L224).  The pagination parameters reach
only the slice. -/

def web3View (tz : Int) (n : NowTime) (tf : TimeFilter) (q tyf cf pf : String)
    (key : Web3SortKey) (dir : SortDir) (page pageSize : Nat)
    (exploits : List ExploitDetail) : List ExploitDetail × Int :=
  (slicePage (sortedExploits tz key dir
      (projectFilteredExploits tz n tf q tyf cf pf exploits)) page pageSize,
   totalLosses tz n tf q tyf cf pf exploits)

/-! ### Concrete fixtures used by the claim witnesses and counterexamples -/

/-- An exploit record that differs only in `funds_lost` (the spec's
`[{v:5},{v:null},{v:1}]` null-sorting example, with `v = funds_lost`). -/
def exFunds (f : Option Int) : ExploitDetail :=
  ⟨"P", "q", f, some "2024-01-01", "T", none, none⟩

/-- Chart example: a January 2024 record appears first in feed order, a
December 2023 record with `null` funds second, a second January record
third. -/
def chartExploits : List ExploitDetail :=
  [⟨"A", "q", some 100, some "2024-01-15", "T", none, none⟩,
   ⟨"B", "q", none, some "2023-12-01", "T", none, none⟩,
   ⟨"C", "q", some 7, some "2024-01-20", "T", none, none⟩]

/-- A post-2015 record. -/
def exploit2016 : ExploitDetail :=
  ⟨"New", "q", some 10, some "2016-03-04", "T", none, none⟩

/-- A 2014 record, subject to the pre-2015 guard. -/
def exploit2014 : ExploitDetail :=
  ⟨"Old", "q", some 20, some "2014-03-04", "T", none, none⟩

/-- A feed with one post-2015 record and one 2014 record. -/
def yearGuardExploits : List ExploitDetail := [exploit2016, exploit2014]

/-- A fixed client clock for concrete evaluations: 2024-05-01 noon. -/
def nowFixture : NowTime := ⟨2024, 5, 1, 720⟩

/-- A leak whose `breach_date` does not parse. -/
def badDateLeak : DataLeak := ⟨"ex.com", some "not a date", "emails", 5, "Ex"⟩

/-! ## General lemmas about the stable sort -/

theorem mem_insertCmp (cmp : α → α → Int) (x : α) (l : List α) :
    ∀ z ∈ insertCmp cmp x l, z = x ∨ z ∈ l := by
  induction l with
  | nil => intro z hz; simp [insertCmp] at hz; exact Or.inl hz
  | cons y ys ih =>
    intro z hz
    by_cases h : cmp y x < 0
    · simp only [insertCmp, if_pos h, List.mem_cons] at hz
      rcases hz with hz | hz
      · exact Or.inr (hz ▸ List.mem_cons_self y ys)
      · rcases ih z hz with h' | h'
        · exact Or.inl h'
        · exact Or.inr (List.mem_cons_of_mem y h')
    · simp only [insertCmp, if_neg h, List.mem_cons] at hz
      rcases hz with hz | hz
      · exact Or.inl hz
      · exact Or.inr (List.mem_cons.mpr hz)

theorem mem_sortWith (cmp : α → α → Int) (l : List α) :
    ∀ z ∈ sortWith cmp l, z ∈ l := by
  induction l with
  | nil => intro z hz; simp [sortWith] at hz
  | cons x xs ih =>
    intro z hz
    rcases mem_insertCmp cmp x (sortWith cmp xs) z hz with h | h
    · exact h ▸ List.mem_cons_self x xs
    · exact List.mem_cons_of_mem x (ih z h)

/-- Sortedness of the insertion step: if the comparator is antisymmetric-ish
(`cmp b a ≥ 0 → cmp a b ≤ 0`) and transitive on nonpositive results, then
inserting into a `Pairwise`-sorted list keeps it sorted. -/
theorem pairwise_insertCmp (cmp : α → α → Int)
    (hneg : ∀ a b, 0 ≤ cmp b a → cmp a b ≤ 0)
    (htrans : ∀ a b c, cmp a b ≤ 0 → cmp b c ≤ 0 → cmp a c ≤ 0)
    (x : α) (l : List α) (hl : l.Pairwise (fun a b => cmp a b ≤ 0)) :
    (insertCmp cmp x l).Pairwise (fun a b => cmp a b ≤ 0) := by
  induction l with
  | nil => simp [insertCmp]
  | cons y ys ih =>
    rcases List.pairwise_cons.mp hl with ⟨hy, hys⟩
    by_cases h : cmp y x < 0
    · simp only [insertCmp, if_pos h]
      refine List.pairwise_cons.mpr ⟨?_, ih hys⟩
      intro z hz
      rcases mem_insertCmp cmp x ys z hz with hzx | hzy
      · exact hzx ▸ le_of_lt h
      · exact hy z hzy
    · simp only [insertCmp, if_neg h]
      refine List.pairwise_cons.mpr ⟨?_, hl⟩
      intro z hz
      have hxy : cmp x y ≤ 0 := hneg x y (le_of_not_lt h)
      rcases List.mem_cons.mp hz with hzy | hzz
      · exact hzy ▸ hxy
      · exact htrans x y z hxy (hy z hzz)

/-- The stable sort produces a list sorted w.r.t. the comparator. -/
theorem pairwise_sortWith (cmp : α → α → Int)
    (hneg : ∀ a b, 0 ≤ cmp b a → cmp a b ≤ 0)
    (htrans : ∀ a b c, cmp a b ≤ 0 → cmp b c ≤ 0 → cmp a c ≤ 0)
    (l : List α) :
    (sortWith cmp l).Pairwise (fun a b => cmp a b ≤ 0) := by
  induction l with
  | nil => simp [sortWith]
  | cons x xs ih => exact pairwise_insertCmp cmp hneg htrans x (sortWith cmp xs) ih

/-- Separation lemma: if the comparator always walks past a `p`-false element
when inserting a `p`-true one (`hwalk`), and never walks past a `p`-true
element when inserting a `p`-false one (`hstop`), then in the sorted output a
`p`-true element is only ever followed by `p`-true elements. -/
theorem pairwise_sep_insertCmp (cmp : α → α → Int) (p : α → Bool)
    (hwalk : ∀ y x, p x = true → p y = false → cmp y x < 0)
    (hstop : ∀ y x, p x = false → p y = true → ¬ cmp y x < 0)
    (x : α) (l : List α)
    (hl : l.Pairwise (fun a b => p a = true → p b = true)) :
    (insertCmp cmp x l).Pairwise (fun a b => p a = true → p b = true) := by
  induction l with
  | nil => simp [insertCmp]
  | cons y ys ih =>
    rcases List.pairwise_cons.mp hl with ⟨hy, hys⟩
    by_cases h : cmp y x < 0
    · simp only [insertCmp, if_pos h]
      refine List.pairwise_cons.mpr ⟨?_, ih hys⟩
      intro z hz hpy
      rcases mem_insertCmp cmp x ys z hz with hzx | hzy
      · subst hzx
        by_cases hpx : p z = true
        · exact hpx
        · exact absurd h (hstop y z (Bool.eq_false_iff.mpr hpx) hpy)
      · exact hy z hzy hpy
    · simp only [insertCmp, if_neg h]
      refine List.pairwise_cons.mpr ⟨?_, hl⟩
      intro z hz hpx
      rcases List.mem_cons.mp hz with hzy | hzz
      · subst hzy
        by_cases hpz : p z = true
        · exact hpz
        · exact absurd (hwalk z x hpx (Bool.eq_false_iff.mpr hpz)) h
      · by_cases hpy : p y = true
        · exact hy z hzz hpy
        · exact absurd (hwalk y x hpx (Bool.eq_false_iff.mpr hpy)) h

theorem pairwise_sep_sortWith (cmp : α → α → Int) (p : α → Bool)
    (hwalk : ∀ y x, p x = true → p y = false → cmp y x < 0)
    (hstop : ∀ y x, p x = false → p y = true → ¬ cmp y x < 0)
    (l : List α) :
    (sortWith cmp l).Pairwise (fun a b => p a = true → p b = true) := by
  induction l with
  | nil => simp [sortWith]
  | cons x xs ih => exact pairwise_sep_insertCmp cmp p hwalk hstop x (sortWith cmp xs) ih

/-! ## Helper lemmas about the page embeddings -/

theorem str_isEmpty_false {s : String} (h : s ≠ "") : s.isEmpty = false := by
  cases hs : s.isEmpty
  · rfl
  · exact absurd ((String.isEmpty_iff s).mp hs) h

/-- Membership characterization of the leaks filter pipeline. -/
theorem mem_applyLeaksFilters {q t sd ed : String} {leaks : List DataLeak}
    {l : DataLeak} :
    l ∈ applyLeaksFilters q t sd ed leaks ↔
      l ∈ leaks ∧
      (q.isEmpty = true ∨ leaksSearchPasses q l = true) ∧
      (t = "all" ∨ leaksTypePasses t l = true) ∧
      (sd.isEmpty = true ∨
        geOpt (leakBreachTs l.breach_date) (jsParseTs sd) = true) ∧
      (ed.isEmpty = true ∨
        leOpt (leakBreachTs l.breach_date) (jsParseTs ed) = true) := by
  simp only [applyLeaksFilters]
  by_cases h1 : q.isEmpty = true <;> by_cases h2 : t = "all" <;>
    by_cases h3 : sd.isEmpty = true <;> by_cases h4 : ed.isEmpty = true <;>
      simp [h1, h2, h3, h4, List.mem_filter] <;> tauto

theorem mem_updateBucket (key : Option (Int × Int)) (v : Int)
    (acc : List (Option (Int × Int) × Int)) :
    ∀ b ∈ updateBucket key v acc, b.1 = key ∨ ∃ b' ∈ acc, b.1 = b'.1 := by
  induction acc with
  | nil =>
    intro b hb
    simp [updateBucket] at hb
    exact Or.inl (by rw [hb])
  | cons p rest ih =>
    obtain ⟨k, x⟩ := p
    intro b hb
    simp only [updateBucket] at hb
    by_cases h : k = key
    · rw [if_pos h] at hb
      rcases List.mem_cons.mp hb with hb | hb
      · exact Or.inl (by rw [hb, h])
      · exact Or.inr ⟨b, List.mem_cons_of_mem _ hb, rfl⟩
    · rw [if_neg h] at hb
      rcases List.mem_cons.mp hb with hb | hb
      · exact Or.inr ⟨(k, x), List.mem_cons_self _ _, by rw [hb]⟩
      · rcases ih b hb with hk | ⟨b', hb', hkeq⟩
        · exact Or.inl hk
        · exact Or.inr ⟨b', List.mem_cons_of_mem _ hb', hkeq⟩

theorem chartFold_keys (l : List ExploitDetail) :
    ∀ acc, (∀ b ∈ acc, b.1.isSome = true) →
      (∀ e ∈ l, ∀ s, e.date = some s → s.isEmpty = false →
        (monthYearOf s).isSome = true) →
      ∀ b ∈ l.foldl chartStep acc, b.1.isSome = true := by
  induction l with
  | nil =>
    intro acc hacc _ b hb
    rw [List.foldl_nil] at hb
    exact hacc b hb
  | cons e es ih =>
    intro acc hacc hall b hb
    rw [List.foldl_cons] at hb
    refine ih (chartStep acc e) ?_
      (fun e' he' s hd hs => hall e' (List.mem_cons_of_mem _ he') s hd hs) b hb
    intro b' hb'
    cases hd : e.date with
    | none =>
      simp only [chartStep, hd] at hb'
      exact hacc b' hb'
    | some s =>
      simp only [chartStep, hd] at hb'
      by_cases hs : s.isEmpty = true
      · rw [if_pos hs] at hb'
        exact hacc b' hb'
      · rw [if_neg hs] at hb'
        rcases mem_updateBucket (monthYearOf s) (e.funds_lost.getD 0) acc b' hb'
          with hk | ⟨b'', hb'', hkeq⟩
        · rw [hk]
          exact hall e (List.mem_cons_self e es) s hd (Bool.eq_false_iff.mpr hs)
        · rw [hkeq]; exact hacc b'' hb''

theorem foldl_add_getD (l : List ExploitDetail) (init : Int) :
    l.foldl (fun sum e => sum + e.funds_lost.getD 0) init
      = init + (l.map (fun e => e.funds_lost.getD 0)).sum := by
  induction l generalizing init with
  | nil => simp
  | cons x xs ih =>
    rw [List.foldl_cons, List.map_cons, List.sum_cons, ih, add_assoc]

/-! ## Claim C1: null-key placement under sorting -/

/-- C1 counterexample: the spec's own example `[{v:5},{v:null},{v:1}]`
(with `v = funds_lost`) sorted ascending by the Web3 comparator places the
null-key record *first*, not last: the output key order is
`[null, 1, 5]`, not the claimed `[1, 5, null]`.  So nulls-last is not
direction-invariant. -/
theorem C1_counterexample :
    (sortedExploits 0 .funds_lost .asc
        [exFunds (some 5), exFunds none, exFunds (some 1)]).map
      (fun e => e.funds_lost) = [none, some 1, some 5] ∧
    (sortedExploits 0 .funds_lost .asc
        [exFunds (some 5), exFunds none, exFunds (some 1)]).map
      (fun e => e.funds_lost) ≠ [some 1, some 5, none] := by
  constructor
  · decide
  · decide

/-- C1 (amended): null-key placement is direction-dependent, not
direction-invariant.  For every sort key and record list: sorting
*descending* places every record whose key field is `null` after every
record with a non-null key (no null-key record precedes a non-null one);
sorting *ascending* places every null-key record before every non-null one
(no non-null-key record precedes a null one).  This is the comparator's
leading guard `aValue == null ? (asc ? -1 : 1) : ...` shared by part_004
L232-233 and part_002 L186-187. -/
theorem C1_amended (tz : Int) (key : Web3SortKey) (l : List ExploitDetail) :
    ((sortedExploits tz key .desc l).Pairwise
      (fun a b => web3FieldIsNull key a = true → web3FieldIsNull key b = true)) ∧
    ((sortedExploits tz key .asc l).Pairwise
      (fun a b => web3FieldIsNull key b = true → web3FieldIsNull key a = true)) := by
  constructor
  · simp only [sortedExploits]
    have hwalk : ∀ y x, web3FieldIsNull key x = true →
        web3FieldIsNull key y = false → web3SortCmp tz key .desc y x < 0 := by
      intro y x hx hy
      have hc : web3SortCmp tz key .desc y x = -1 := by
        simp [web3SortCmp, hx, hy]
      rw [hc]; decide
    have hstop : ∀ y x, web3FieldIsNull key x = false →
        web3FieldIsNull key y = true → ¬ web3SortCmp tz key .desc y x < 0 := by
      intro y x hx hy
      have hc : web3SortCmp tz key .desc y x = 1 := by
        simp [web3SortCmp, hx, hy]
      rw [hc]; decide
    exact pairwise_sep_sortWith (web3SortCmp tz key .desc)
      (fun e => web3FieldIsNull key e) hwalk hstop l
  · simp only [sortedExploits]
    have hwalk : ∀ y x, (! web3FieldIsNull key x) = true →
        (! web3FieldIsNull key y) = false → web3SortCmp tz key .asc y x < 0 := by
      intro y x _ hy
      have hy' : web3FieldIsNull key y = true := by simpa using hy
      have hc : web3SortCmp tz key .asc y x = -1 := by
        simp [web3SortCmp, hy']
      rw [hc]; decide
    have hstop : ∀ y x, (! web3FieldIsNull key x) = false →
        (! web3FieldIsNull key y) = true → ¬ web3SortCmp tz key .asc y x < 0 := by
      intro y x hx hy
      have hx' : web3FieldIsNull key x = true := by simpa using hx
      have hy' : web3FieldIsNull key y = false := by simpa using hy
      have hc : web3SortCmp tz key .asc y x = 1 := by
        simp [web3SortCmp, hx', hy']
      rw [hc]; decide
    have h := pairwise_sep_sortWith (web3SortCmp tz key .asc)
      (fun e => ! web3FieldIsNull key e) hwalk hstop l
    refine h.imp ?_
    intro a b hab hb
    by_cases hna : web3FieldIsNull key a = true
    · exact hna
    · exfalso
      have h1 : (! web3FieldIsNull key a) = true := by
        simp [Bool.not_eq_true'] at hna ⊢
        exact hna
      have h2 := hab h1
      simp only [Bool.not_eq_true'] at h2
      rw [hb] at h2
      cases h2

/-! ## Claim C2: the page-count formula -/

/-- C2 counterexample: on the empty filtered list with `pageSize = 20`
(part_002 uses 20, part_009 uses 10; part_004 uses 10), the code computes
`totalPages = 0`, whereas the claim's formula `max(1, ceil(0/20))` gives
`1`; moreover the page used to slice, reset at most to `1`, is then outside
`[1, totalPages] = [1, 0]`. -/
theorem C2_counterexample :
    totalPages 0 20 = 0 ∧ specTotalPages 0 20 = 1 ∧
    totalPages 0 20 ≠ specTotalPages 0 20 ∧ ¬ 1 ≤ totalPages 0 20 := by
  decide

/-- C2 (amended): for every `pageSize ≥ 1`, the computed `totalPages` is the
plain ceiling `ceil(filteredCount / pageSize)` with no lower bound: it
satisfies the two ceiling inequalities, it is `0` (not `1`) on the empty
filtered list, and it agrees with the spec's `max(1, ceil(...))` exactly
when the filtered list is nonempty.  The slicing page is taken from state
unclamped (it is only ever reset to 1 by the filter-change effects). -/
theorem C2_amended (ps count : Nat) (hps : 1 ≤ ps) :
    count ≤ ps * totalPages count ps ∧
    (0 < count → ps * (totalPages count ps - 1) < count) ∧
    totalPages 0 ps = 0 ∧
    (1 ≤ count → totalPages count ps = specTotalPages count ps) := by
  have h1 := Nat.div_add_mod (count + ps - 1) ps
  have h2 : (count + ps - 1) % ps < ps := Nat.mod_lt _ (by omega)
  have h3 : totalPages 0 ps = 0 := by
    simp only [totalPages, Nat.zero_add]
    exact Nat.div_eq_of_lt (by omega)
  simp only [totalPages, specTotalPages]
  rcases Nat.eq_zero_or_pos ((count + ps - 1) / ps) with hq | hq
  · rw [hq] at h1 ⊢
    refine ⟨?_, ?_, h3, ?_⟩ <;> omega
  · have hmul : ps * ((count + ps - 1) / ps) =
        ps * ((count + ps - 1) / ps - 1) + ps := by
      calc ps * ((count + ps - 1) / ps)
          = ps * ((count + ps - 1) / ps - 1 + 1) := by
            rw [Nat.sub_add_cancel hq]
        _ = ps * ((count + ps - 1) / ps - 1) + ps := by
            rw [Nat.mul_add, Nat.mul_one]
    refine ⟨?_, ?_, h3, ?_⟩ <;> omega

/-- C2 amended witness at `pageSize = 20`, `count = 25`. -/
theorem C2_amended_witness :
    25 ≤ 20 * totalPages 25 20 ∧ totalPages 0 20 = 0 := by
  have h := C2_amended 20 25 (by decide)
  exact ⟨h.1, h.2.2.1⟩

/-! ## Claim C3: page reset on filter/sort changes -/

/-- C3 counterexample: on the EOL page, `handleSortChange` (part_002
L195-200) changes the sort state but leaves `currentPage` untouched: from a
state on page 2, sorting by `eol` keeps `currentPage = 2 ≠ 1`. -/
theorem C3_counterexample :
    (eolHandleSortChange "eol"
        ⟨"", "all", "all", "daysRemaining", .asc, 2⟩).sortKey = "eol" ∧
    (eolHandleSortChange "eol"
        ⟨"", "all", "all", "daysRemaining", .asc, 2⟩).currentPage = 2 ∧
    (eolHandleSortChange "eol"
        ⟨"", "all", "all", "daysRemaining", .asc, 2⟩).currentPage ≠ 1 := by
  decide

/-- C3 (amended): filter-state changes reset `currentPage` to 1 on all three
pages (search/status/software on EOL; search/data-type/date-range on leaks;
search/category/type on Web3), and the Web3 page's `handleSortChange` also
resets it; but sort changes on the EOL and leaks pages, and the Web3 page's
time-filter change, leave `currentPage` unchanged. -/
theorem C3_amended :
    (∀ q st, (eolSetSearchQuery q st).currentPage = 1) ∧
    (∀ v st, (eolSetStatusFilter v st).currentPage = 1) ∧
    (∀ v st, (eolSetSoftwareFilter v st).currentPage = 1) ∧
    (∀ k st, (eolHandleSortChange k st).currentPage = st.currentPage) ∧
    (∀ q st, (leaksSetSearchQuery q st).currentPage = 1) ∧
    (∀ v st, (leaksSetDataTypeFilter v st).currentPage = 1) ∧
    (∀ v st, (leaksSetStartDate v st).currentPage = 1) ∧
    (∀ v st, (leaksSetEndDate v st).currentPage = 1) ∧
    (∀ k st, (leaksHandleSortChange k st).currentPage = st.currentPage) ∧
    (∀ q st, (web3SetSearchQuery q st).currentPage = 1) ∧
    (∀ v st, (web3SetCategoryFilter v st).currentPage = 1) ∧
    (∀ v st, (web3SetTypeFilter v st).currentPage = 1) ∧
    (∀ k st, (web3HandleSortChange k st).currentPage = 1) ∧
    (∀ tf st, (web3SetTimeFilter tf st).currentPage = st.currentPage) := by
  refine ⟨?_, ?_, ?_, ?_, ?_, ?_, ?_, ?_, ?_, ?_, ?_, ?_, ?_, ?_⟩ <;>
    intro a st <;> rfl

/-! ## Claim C10: EOL status on the exact EOL day -/

/-- C10: a software version whose parsed EOL date is exactly today has
`daysRemaining = 0`, which is falsy, so every threshold branch of
`processData` (part_002 L97-110) is skipped and the status is `Active` —
not `Expired` or `Critical`. -/
theorem C10_eol_today_active (today : Int) (s : String) (t : Int)
    (hp : jsParseDay s = some t) (h0 : t = today) :
    daysRemaining today (.str s) = .val 0 ∧
    processStatus today (.str s) = "Active" ∧
    processStatus today (.str s) ≠ "Expired" ∧
    processStatus today (.str s) ≠ "Critical" := by
  subst h0
  have hdr : daysRemaining t (.str s) = .val 0 := by
    simp [daysRemaining, hp]
  refine ⟨hdr, ?_, ?_, ?_⟩ <;>
    simp [processStatus, hdr, jsTruthy, jsLtNum]

/-- C10 witness: `"2024-01-15"` parses to epoch day 19737; on that very day
the status is `Active`. -/
theorem C10_witness :
    jsParseDay "2024-01-15" = some 19737 ∧
    processStatus 19737 (.str "2024-01-15") = "Active" := by
  refine ⟨by decide, ?_⟩
  exact (C10_eol_today_active 19737 "2024-01-15" 19737 (by decide) rfl).2.1

/-! ## Claim C4: ISO special-casing of composite date parsing -/

/-- C4 counterexample: the claim covers the data-leaks date-range filter
(part_009 L130-145), but that filter parses `breach_date` generically
(`new Date(string)` — UTC midnight for an ISO string), not as a local
calendar date built from components: on a host one hour east of UTC
(`tz = 60`) the two values differ for `"2024-01-15"`. -/
theorem C4_counterexample :
    isoComponents "2024-01-15" = some (2024, 1, 15) ∧
    leakBreachTs (some "2024-01-15") = jsParseTs "2024-01-15" ∧
    leakBreachTs (some "2024-01-15") ≠ some (jsMakeDateTs 60 2024 1 15) := by
  refine ⟨by decide, rfl, by decide⟩

/-- C4 (amended): the `YYYY-MM-DD` special case exists on the Web3 threats
page only.  There, a date string matching the pattern is built with the
local component constructor — by `getFilteredData` for range filtering and,
via the same expression, by the comparator's date branch — while any other
format is parsed generically, and a record whose date does not parse is
excluded from range filtering.  The data-leaks page's range filter (and its
`breach_date` sort) parses every date string generically, with no special
case. -/
theorem C4_amended (tz : Int) (s s2 : String) (y m d : Int) (startTs : Int)
    (e : ExploitDetail)
    (hiso : isoComponents s = some (y, m, d))
    (hnon : isoComponents s2 = none)
    (hds : e.date = some s2)
    (hinv : web3FilterDateTs tz s2 = none) :
    web3FilterDateTs tz s = some (jsMakeDateTs tz y m d) ∧
    web3FilterDateTs tz s2 = jsParseTs s2 ∧
    web3ExploitPasses tz startTs e = false ∧
    leakBreachTs (some s) = jsParseTs s ∧
    leakBreachTs (some s2) = jsParseTs s2 := by
  refine ⟨?_, ?_, ?_, rfl, rfl⟩
  · simp [web3FilterDateTs, hiso]
  · simp [web3FilterDateTs, hnon]
  · simp only [web3ExploitPasses, hds]
    by_cases hemp : s2.isEmpty = true
    · simp [hemp]
    · have hemp' : s2.isEmpty = false := Bool.eq_false_iff.mpr hemp
      by_cases hg : (match leadingYearNum s2 with
          | some yv => decide (yv < 2015)
          | none => false) = true
      · simp [hemp', hg]
      · have hg' := Bool.eq_false_iff.mpr hg
        simp [hemp', hg', hinv]

/-- C4 amended witness: `"2024-01-15"` goes through the local constructor on
the Web3 page; `"nope"` is generically unparsable and is excluded from the
Web3 range filter. -/
theorem C4_witness :
    web3FilterDateTs 0 "2024-01-15" = some (jsMakeDateTs 0 2024 1 15) ∧
    web3ExploitPasses 0 0 ⟨"P", "q", none, some "nope", "T", none, none⟩
      = false := by
  have h := C4_amended 0 "2024-01-15" "nope" 2024 1 15 0
    ⟨"P", "q", none, some "nope", "T", none, none⟩
    (by decide) (by decide) rfl (by decide)
  exact ⟨h.1, h.2.2.1⟩

/-! ## Claim C5: date-range exclusion asymmetry on the leaks page -/

/-- C5: a record whose `breach_date` is missing or unparsable is excluded by
the compiled filter whenever either date-range bound is a nonempty string,
and is included — as far as the date criterion goes — when neither bound is
set (membership then depends only on the search and data-type filters).
The filter is a total function of the record, so no exception arises. -/
theorem C5_unparsable_date (leaks : List DataLeak) (q tFilter sd ed : String)
    (l : DataLeak) (hbad : leakBreachTs l.breach_date = none) :
    (sd ≠ "" → l ∉ applyLeaksFilters q tFilter sd ed leaks) ∧
    (ed ≠ "" → l ∉ applyLeaksFilters q tFilter sd ed leaks) ∧
    ((q = "" ∨ leaksSearchPasses q l = true) →
      (tFilter = "all" ∨ leaksTypePasses tFilter l = true) →
      l ∈ leaks → l ∈ applyLeaksFilters q tFilter "" "" leaks) := by
  refine ⟨?_, ?_, ?_⟩
  · intro hsd hmem
    rcases (mem_applyLeaksFilters.mp hmem).2.2.2.1 with h | h
    · rw [str_isEmpty_false hsd] at h
      cases h
    · rw [hbad] at h
      simp [geOpt] at h
  · intro hed hmem
    rcases (mem_applyLeaksFilters.mp hmem).2.2.2.2 with h | h
    · rw [str_isEmpty_false hed] at h
      cases h
    · rw [hbad] at h
      simp [leOpt] at h
  · intro hq ht hmem
    refine mem_applyLeaksFilters.mpr ⟨hmem, ?_, ?_, Or.inl rfl, Or.inl rfl⟩
    · rcases hq with hq | hq
      · exact Or.inl (by rw [hq]; rfl)
      · exact Or.inr hq
    · exact ht

/-- C5 witness: `badDateLeak`'s `"not a date"` is excluded once a start
bound is set and included when no date filter is active. -/
theorem C5_witness :
    badDateLeak ∉ applyLeaksFilters "" "all" "2024-01-01" "" [badDateLeak] ∧
    badDateLeak ∈ applyLeaksFilters "" "all" "" "" [badDateLeak] := by
  have h := C5_unparsable_date [badDateLeak] "" "all" "2024-01-01" ""
    badDateLeak (by decide)
  have h' := C5_unparsable_date [badDateLeak] "" "all" "" "" badDateLeak
    (by decide)
  exact ⟨h.1 (by decide),
    h'.2.2 (Or.inl rfl) (Or.inl rfl) (List.mem_cons_self _ _)⟩

/-! ## Claim C6: aggregate scope is the filtered, pre-pagination set -/

/-- C6: the `totalLosses` aggregate equals the sum of `funds_lost` (null
contributing `0`) over exactly the records passing the active filters —
the filtered, pre-pagination set — and its value is unchanged under any
change of `pageSize` or `currentPage`. -/
theorem C6_aggregate_scope (tz : Int) (n : NowTime) (tf : TimeFilter)
    (q tyf cf pf : String) (key : Web3SortKey) (dir : SortDir)
    (page ps page' ps' : Nat) (exploits : List ExploitDetail) :
    (web3View tz n tf q tyf cf pf key dir page ps exploits).2
      = ((projectFilteredExploits tz n tf q tyf cf pf exploits).map
          (fun e => e.funds_lost.getD 0)).sum ∧
    (web3View tz n tf q tyf cf pf key dir page ps exploits).2
      = (web3View tz n tf q tyf cf pf key dir page' ps' exploits).2 := by
  constructor
  · show totalLosses tz n tf q tyf cf pf exploits = _
    rw [totalLosses, foldl_add_getD, zero_add]
  · rfl

/-! ## Claim C7: month-bucketed loss series order -/

/-- C7: `lossesOverTimeData` groups records into month-plus-year buckets
(`"Mon YYYY"`), sums `funds_lost` per bucket with null contributing `0`,
and sorts the series by the epoch day of the first of each bucket's month —
chronological order, not first-appearance or alphabetical order.  When every
date in the (already date-filtered) input parses, every bucket carries a
real (year, month); on the input listing January 2024 before December 2023
the series comes out `["Dec 2023", "Jan 2024"]`. -/
theorem C7_chronological (l : List ExploitDetail)
    (hall : ∀ e ∈ l, ∀ s, e.date = some s → s.isEmpty = false →
      (monthYearOf s).isSome = true) :
    ((lossesOverTimeData l).Pairwise
      (fun b1 b2 => bucketTime b1.1 ≤ bucketTime b2.1)) ∧
    (∀ b ∈ lossesOverTimeData l, b.1.isSome = true) ∧
    (l = chartExploits →
      (lossesOverTimeData l).map (fun b => (bucketLabel b.1, b.2)) =
        [("Dec 2023", 0), ("Jan 2024", 107)]) := by
  refine ⟨?_, ?_, ?_⟩
  · have h := pairwise_sortWith
      (fun b1 b2 => bucketTime b1.1 - bucketTime b2.1)
      (fun a b hab => by dsimp only at hab ⊢; omega)
      (fun a b c h1 h2 => by dsimp only at h1 h2 ⊢; omega)
      (chartBuckets l)
    exact h.imp (fun hab => by omega)
  · intro b hb
    exact chartFold_keys l [] (by simp) hall b
      (mem_sortWith _ _ b hb)
  · intro hl
    subst hl
    decide

/-- C7 witness on the concrete chart example. -/
theorem C7_witness :
    (∀ b ∈ lossesOverTimeData chartExploits, b.1.isSome = true) ∧
    (lossesOverTimeData chartExploits).map (fun b => (bucketLabel b.1, b.2)) =
      [("Dec 2023", 0), ("Jan 2024", 107)] := by
  have h := C7_chronological chartExploits (by decide)
  exact ⟨h.2.1, h.2.2 rfl⟩

/-! ## Claim C8: the edge proxy's response cases -/

/-- C8: the worker responds 401 when a token is configured and the header is
missing or wrong; otherwise 404 on a path not matching `/{4 digits}.json`;
otherwise 500 when no origin is configured; otherwise it forwards to
`{ORIGIN_BASE_URL}/{path}`, passes a non-ok upstream status through, and on
success re-emits with status 200, no `set-cookie`, and
`Cache-Control: public, max-age=300`. -/
theorem C8_worker (env : WorkerEnv) (req : WorkerRequest)
    (upstream : String → UpstreamResult) :
    (tokenCheckActive env = true → tokenRejected env req = true →
      workerFetch env req upstream = ⟨401, false, none, none⟩) ∧
    ((tokenCheckActive env = true → tokenRejected env req = false) →
      isYearJson (stripLeadingSlashes req.pathname) = false →
      workerFetch env req upstream = ⟨404, false, none, none⟩) ∧
    ((tokenCheckActive env = true → tokenRejected env req = false) →
      isYearJson (stripLeadingSlashes req.pathname) = true →
      (env.ORIGIN_BASE_URL = none ∨ env.ORIGIN_BASE_URL = some "") →
      workerFetch env req upstream = ⟨500, false, none, none⟩) ∧
    (∀ origin,
      (tokenCheckActive env = true → tokenRejected env req = false) →
      isYearJson (stripLeadingSlashes req.pathname) = true →
      env.ORIGIN_BASE_URL = some origin → origin ≠ "" →
      (upstreamOk (upstream (stripTrailingSlashes origin ++ "/" ++
          stripLeadingSlashes req.pathname)) = false →
        workerFetch env req upstream =
          ⟨(upstream (stripTrailingSlashes origin ++ "/" ++
              stripLeadingSlashes req.pathname)).status, false, none,
           some (stripTrailingSlashes origin ++ "/" ++
              stripLeadingSlashes req.pathname)⟩) ∧
      (upstreamOk (upstream (stripTrailingSlashes origin ++ "/" ++
          stripLeadingSlashes req.pathname)) = true →
        workerFetch env req upstream =
          ⟨200, false, some "public, max-age=300",
           some (stripTrailingSlashes origin ++ "/" ++
              stripLeadingSlashes req.pathname)⟩)) := by
  have hauthf : ∀ (_ : tokenCheckActive env = true → tokenRejected env req = false),
      (tokenCheckActive env && tokenRejected env req) = false := by
    intro h
    cases hA : tokenCheckActive env
    · simp
    · simp [h hA]
  refine ⟨?_, ?_, ?_, ?_⟩
  · intro hA hR
    simp [workerFetch, hA, hR]
  · intro hAuth hPath
    simp [workerFetch, hauthf hAuth, hPath]
  · intro hAuth hPath hOrig
    have hEmp : ("" : String).isEmpty = true := by decide
    rcases hOrig with hO | hO <;>
      simp [workerFetch, hauthf hAuth, hPath, hO, hEmp]
  · intro origin hAuth hPath hO hne
    have hne' : origin.isEmpty = false := str_isEmpty_false hne
    constructor
    · intro hUp
      simp [workerFetch, hauthf hAuth, hPath, hO, hne', hUp]
    · intro hUp
      simp [workerFetch, hauthf hAuth, hPath, hO, hne', hUp]

/-- C8 witness: a well-formed authorized request against an ok upstream. -/
theorem C8_witness :
    workerFetch ⟨some "tok", some "https://o/"⟩ ⟨"/2026.json", some "tok"⟩
        (fun _ => ⟨204, true⟩)
      = ⟨200, false, some "public, max-age=300", some "https://o/2026.json"⟩ ∧
    workerFetch ⟨some "tok", some "https://o/"⟩ ⟨"/2026.json", some "bad"⟩
        (fun _ => ⟨204, true⟩)
      = ⟨401, false, none, none⟩ := by
  have h := C8_worker ⟨some "tok", some "https://o/"⟩ ⟨"/2026.json", some "tok"⟩
    (fun _ => ⟨204, true⟩)
  have h2 := C8_worker ⟨some "tok", some "https://o/"⟩ ⟨"/2026.json", some "bad"⟩
    (fun _ => ⟨204, true⟩)
  exact ⟨(h.2.2.2 "https://o/" (by decide) (by decide) rfl (by decide)).2
      (by decide),
    h2.1 (by decide) (by decide)⟩

/-! ## Claim C9: the pre-2015 year guard on the Web3 page -/

/-- C9: for every time filter — `'all'` included — a record whose date
string's leading `-`-separated component converts to a number below 2015 is
excluded by `getFilteredData`, and therefore from everything derived from
it: the post-filter pipeline feeding the statistics cards and, after
sorting and slicing, the table (the chart series consumes the same
filtered list). -/
theorem C9_pre2015_excluded (tz : Int) (n : NowTime) (tf : TimeFilter)
    (q tyf cf pf : String) (key : Web3SortKey) (dir : SortDir)
    (page ps : Nat) (exploits : List ExploitDetail) (e : ExploitDetail)
    (hmem : e ∈ getFilteredData tz n tf exploits
      ∨ e ∈ projectFilteredExploits tz n tf q tyf cf pf exploits
      ∨ e ∈ slicePage (sortedExploits tz key dir
            (projectFilteredExploits tz n tf q tyf cf pf exploits)) page ps)
    (s : String) (hs : e.date = some s) (y : Int)
    (hy : leadingYearNum s = some y) :
    2015 ≤ y := by
  have hsub : e ∈ projectFilteredExploits tz n tf q tyf cf pf exploits →
      e ∈ getFilteredData tz n tf exploits := by
    intro h
    simp only [projectFilteredExploits] at h
    exact List.mem_of_mem_filter (List.mem_of_mem_filter
      (List.mem_of_mem_filter (List.mem_of_mem_filter h)))
  have hflt : e ∈ getFilteredData tz n tf exploits := by
    rcases hmem with h | h | h
    · exact h
    · exact hsub h
    · refine hsub ?_
      have h1 : e ∈ sortedExploits tz key dir
          (projectFilteredExploits tz n tf q tyf cf pf exploits) :=
        List.mem_of_mem_drop (List.mem_of_mem_take h)
      exact mem_sortWith _ _ e h1
  simp only [getFilteredData] at hflt
  have hp := (List.mem_filter.mp hflt).2
  simp only [web3ExploitPasses, hs, hy] at hp
  by_contra hnot
  have hy' : decide (y < 2015) = true := by simp; omega
  simp [hy'] at hp

/-- C9 witness: with the `'all'` time filter, the 2016 record is kept (so
the membership hypothesis is satisfiable) and the theorem yields the year
bound; the 2014 record is indeed dropped from the filtered set. -/
theorem C9_witness :
    (2015 : Int) ≤ 2016 ∧
    exploit2014 ∉ getFilteredData 0 nowFixture .all yearGuardExploits := by
  refine ⟨?_, by decide⟩
  exact C9_pre2015_excluded 0 nowFixture .all "" "all" "all" "all" .date .desc
    1 10 yearGuardExploits exploit2016 (Or.inl (by decide))
    "2016-03-04" rfl 2016 (by decide)

end Menaxa
